import Mathlib

/-!
Verification of the translation request coalescing and caching engine of
`translatorplus.py` (repository thetahseen/translate).

The Python module is shallowly embedded: text values are `List Char`,
Python `None`-able strings are `Option (List Char)`, the module-level
mutable globals become an explicit `TransState` record that is threaded
through the embedded functions, and host/Java/network interactions are
abstracted into explicit environment records.  Fallible operations are
modelled with `Except`/`Option`.  Every definition is translated from the
source file; line numbers in comments refer to `src/translatorplus.py`.
-/

namespace TranslatorPlus

/-! ## Basic Python-style helpers over `List Char` -/

/-- Python truthiness/`strip()` helper: a string is blank when every
character is whitespace (so `s.strip()` is empty, hence falsy). -/
def isBlank (s : List Char) : Bool := s.all Char.isWhitespace

/-- Set-style removal from a list used as a set (`set.discard` /
`dict.pop`): removes every occurrence of `k`. -/
def removeAll (l : List (List Char)) (k : List Char) : List (List Char) :=
  l.filter (fun x => x ≠ k)

/-- First-match association-list lookup, modelling `key in dict` /
`dict[key]` on the JSON-backed cache dictionary. -/
def lookupAssoc (m : List (List Char × List Char)) (k : List Char) :
    Option (List Char) :=
  match m with
  | [] => none
  | (k', v) :: rest => if k' = k then some v else lookupAssoc rest k

/-- Dictionary update `d[k] = v`: replace the binding if present,
otherwise add it. -/
def insertAssoc (m : List (List Char × List Char)) (k v : List Char) :
    List (List Char × List Char) :=
  match m with
  | [] => [(k, v)]
  | (k', v') :: rest =>
    if k' = k then (k', v) :: rest else (k', v') :: insertAssoc rest k v

/-! ## `normalize_language_code` (lines 245-258)

```python
def normalize_language_code(lang_code: str) -> str:
    if not lang_code:
        return "en"
    base_lang = lang_code.split("_")[0].lower()
    if base_lang == "nb":
        return "no"
    return base_lang
```
The argument may be `None` at Python call sites, hence `Option`.
`split("_")[0]` is the longest prefix without an underscore; `.lower()`
is modelled with `Char.toLower` (identical to Python on the ASCII
language codes this module handles). -/
def normalize_language_code (lang_code : Option (List Char)) : List Char :=
  match lang_code with
  | none => "en".toList
  | some s =>
    if s = [] then "en".toList
    else
      let base_lang := (s.takeWhile (fun c => c ≠ '_')).map Char.toLower
      if base_lang = "nb".toList then "no".toList else base_lang

/-! ## `is_already_translated` (lines 223-243)

```python
def is_already_translated(original_text: str, target_lang_code: str) -> bool:
    if not original_text or len(original_text) < 3:
        return True
    try:
        if target_lang_code in ["zh", "ja", "ko"]:
            for c in original_text:
                if ('一' <= c <= '鿿') or ('぀' <= c <= 'ゟ') or \
                   ('゠' <= c <= 'ヿ') or ('가' <= c <= '힯'):
                    return True
        elif target_lang_code in ["ru", "uk", "bg"]:
            for c in original_text:
                if 'Ѐ' <= c <= 'ӿ':
                    return True
    except:
        pass
    return False
```
The body raises nothing (character comparisons are total), so the bare
`except` is dead and the embedding is a pure function.  A `None`
argument is truthy-checked by `not original_text`, hence `Option`. -/
def inCjkRanges (c : Char) : Bool :=
  (0x4e00 ≤ c.toNat && c.toNat ≤ 0x9fff) ||
  (0x3040 ≤ c.toNat && c.toNat ≤ 0x309f) ||
  (0x30a0 ≤ c.toNat && c.toNat ≤ 0x30ff) ||
  (0xac00 ≤ c.toNat && c.toNat ≤ 0xd7af)

def inCyrillicRange (c : Char) : Bool :=
  0x400 ≤ c.toNat && c.toNat ≤ 0x4ff

def cjkTargets : List (List Char) := ["zh".toList, "ja".toList, "ko".toList]

def cyrillicTargets : List (List Char) := ["ru".toList, "uk".toList, "bg".toList]

def is_already_translated (original_text : Option (List Char))
    (target_lang_code : List Char) : Bool :=
  match original_text with
  | none => true
  | some s =>
    if s = [] ∨ s.length < 3 then true
    else if target_lang_code ∈ cjkTargets then s.any inCjkRanges
    else if target_lang_code ∈ cyrillicTargets then s.any inCyrillicRange
    else false

/-! ## `get_cache_key` (lines 113-115)

```python
def get_cache_key(text: str, target_lang: str) -> str:
    return f"{text[:50]}_{target_lang}"
```
-/
def get_cache_key (text target_lang : List Char) : List Char :=
  text.take 50 ++ '_' :: target_lang

/-! ## Module state

The module-level globals of `translatorplus.py` (lines 22-49) become an
explicit state record threaded through the embedded functions.  The two
`diskReads`/`diskWrites` fields are ghost counters recording how often
`load_cache` executed `open` + `json.load` (lines 70-71) and how often
`save_cache` performed a physical `json.dump` (lines 90-91). -/
structure TransState where
  /-- `_visible_message_ids` (line 48). -/
  visibleIds : List Nat
  /-- `in_progress_messages` (line 36), a set of message keys. -/
  inProgress : List (List Char)
  /-- The keys of `_request_cache` (line 45); the only value ever stored
  under a key is the string "PENDING" (line 539), so the mapping is a
  key set. -/
  requestKeys : List (List Char)
  /-- `_translation_cache` (line 38). -/
  translationCache : List (List Char × List Char)
  /-- `_cache_dirty` (line 39). -/
  cacheDirty : Bool
  /-- `_cache_last_save` (line 40), in seconds. -/
  cacheLastSave : Nat
  /-- Ghost counter of disk reads performed by `load_cache`. -/
  diskReads : Nat
  /-- Ghost counter of physical writes performed by `save_cache`. -/
  diskWrites : Nat
  deriving Repr, DecidableEq

/-- `_cache_save_interval = 60` (line 41). -/
def cacheSaveInterval : Nat := 60

/-- Contents of the on-disk cache file: `none` = file absent
(`os.path.exists` false); `some (.error ())` = file present but
`json.load` raises (corrupt); `some (.ok m)` = file parses to the
mapping `m`. -/
abbrev FileContent : Type := Option (Except Unit (List (List Char × List Char)))

/-! ## `load_cache` (lines 62-77)

```python
def load_cache():
    global _translation_cache
    if _translation_cache:
        return _translation_cache
    if os.path.exists(TRANSLATIONS_CACHE_FILE):
        try:
            with open(TRANSLATIONS_CACHE_FILE, 'r', encoding='utf-8') as f:
                _translation_cache = json.load(f)
                return _translation_cache
        except Exception as e:
            log(f"[CACHE] Failed to load cache: {e}")
    _translation_cache = {}
    return _translation_cache
```
The guard `if _translation_cache:` is a truthiness test: it skips the
read only when the in-memory mapping is NON-empty.  On a parse failure
the assignment on line 71 never happens and control falls through to
line 76, which stores the empty mapping; the exception is swallowed. -/
def load_cache (file : FileContent) (st : TransState) :
    List (List Char × List Char) × TransState :=
  if st.translationCache ≠ [] then (st.translationCache, st)
  else
    match file with
    | some content =>
      -- the file exists: `open` + `json.load` run (one disk read)
      let st1 := { st with diskReads := st.diskReads + 1 }
      match content with
      | .ok m => (m, { st1 with translationCache := m })
      | .error _ => ([], { st1 with translationCache := [] })
    | none => ([], { st with translationCache := [] })

/-! ## `save_cache` (lines 79-94)

```python
def save_cache(cache_data):
    global _cache_dirty, _cache_last_save
    _cache_dirty = True
    current_time = time.time()
    if current_time - _cache_last_save < _cache_save_interval:
        return
    _cache_last_save = current_time
    try:
        with open(TRANSLATIONS_CACHE_FILE, 'w', encoding='utf-8') as f:
            json.dump(cache_data, f, ensure_ascii=False, indent=2)
        _cache_dirty = False
    except Exception as e:
        log(f"[CACHE] Failed to save cache: {e}")
```
`now` is the value of `time.time()`; `writeOk` tells whether the
`json.dump` succeeds (a failure is swallowed and leaves the dirty flag
set).  The written payload `cache_data` itself is host I/O and is not
otherwise observable in the model.  Note `time.time()` is a real; the
claims only involve whole-second gaps, so `Nat` time is used, and
`now - lastSave < interval` with truncated subtraction agrees with the
Python comparison whenever `now ≥ lastSave` (and both skip the write
when `now < lastSave`). -/
def save_cache (now : Nat) (writeOk : Bool)
    (cache_data : List (List Char × List Char)) (st : TransState) : TransState :=
  let st1 := { st with cacheDirty := true }
  if now - st1.cacheLastSave < cacheSaveInterval then st1
  else
    let st2 := { st1 with cacheLastSave := now }
    if writeOk then
      { st2 with cacheDirty := false, diskWrites := st2.diskWrites + 1 }
    else st2

/-- The initial module state: all registries empty, `_cache_dirty`
false, `_cache_last_save = 0` (lines 36-48). `visibleIds` is whatever
the viewport tracker last published; the empty default is used by
concrete evaluations. -/
def initState : TransState :=
  { visibleIds := [], inProgress := [], requestKeys := [],
    translationCache := [], cacheDirty := false, cacheLastSave := 0,
    diskReads := 0, diskWrites := 0 }

/-! ## JSON values and Python-style access (for the provider clients)

A provider HTTP exchange is abstracted into the response the call
produced: the outbound request construction (URL, query parameters,
randomized User-Agent, form body) is host network I/O with no effect on
the module state, so the `text`/`target_lang` arguments reach the
embedding but the wire round-trip is a parameter.  Raising Python
operations are modelled in `Except Unit`; the pervasive
`try/.../except: return None` of each provider is the final catch. -/

inductive Json where
  | null
  | jbool (b : Bool)
  | jnum (n : Int)
  | jstr (s : List Char)
  | jarr (xs : List Json)
  | jobj (kvs : List (List Char × Json))

/-- Python truthiness of a JSON value. -/
def truthy : Json → Bool
  | .null => false
  | .jbool b => b
  | .jnum n => n != 0
  | .jstr s => !s.isEmpty
  | .jarr xs => !xs.isEmpty
  | .jobj kvs => !kvs.isEmpty

def jlookup (kvs : List (List Char × Json)) (key : List Char) : Option Json :=
  match kvs with
  | [] => none
  | (k, v) :: rest => if k = key then some v else jlookup rest key

/-- Python `d.get(key)`: `None` when the key is absent; raises
(`AttributeError`) when the receiver is not a dict. -/
def pyGet (j : Json) (key : List Char) : Except Unit Json :=
  match j with
  | .jobj kvs =>
    .ok (match jlookup kvs key with | some v => v | none => .null)
  | _ => .error ()

/-- Python `d[key]` with a string key: raises (`KeyError`) when the key
is absent, and (`TypeError`) on non-dict receivers. -/
def pySubscriptStr (j : Json) (key : List Char) : Except Unit Json :=
  match j with
  | .jobj kvs =>
    (match jlookup kvs key with | some v => .ok v | none => .error ())
  | _ => .error ()

/-- Python `x[0]`: the head of a non-empty list; a raise otherwise.
(On a non-empty string Python would return a one-character string whose
subsequent `["text"]` subscript raises, so collapsing that case to a
raise here leaves every provider result unchanged.) -/
def pyIndexZero (j : Json) : Except Unit Json :=
  match j with
  | .jarr (x :: _) => .ok x
  | _ => .error ()

/-- Python `str.strip()` (whitespace from both ends). -/
def pyStrip (s : List Char) : List Char :=
  ((s.dropWhile Char.isWhitespace).reverse.dropWhile Char.isWhitespace).reverse

/-- An HTTP response: its status code and the outcome of
`response.json()` (`.error` = the body does not parse). -/
structure HttpResp where
  status : Nat
  jsonBody : Except Unit Json

/-- Outcome of `get_session().get/post(...)`: `.error` models a raised
timeout, DNS or connection error. -/
abbrev NetResult : Type := Except Unit HttpResp

/-- `requests.Response.raise_for_status()`: raises for 4xx/5xx. -/
def raiseForStatus (resp : HttpResp) : Except Unit Unit :=
  if 400 ≤ resp.status ∧ resp.status < 600 then .error () else .ok ()

/-! ## `_translate_with_google` (lines 670-695)

```python
def _translate_with_google(self, text, target_lang):
    try:
        params = {...}; headers = {...}
        response = get_session().get(..., timeout=1.0)
        if response.status_code == 429:
            log(...); return None
        response.raise_for_status()
        result = response.json()
        if result and isinstance(result, list) and result[0] and isinstance(result[0], list):
            return result[0][0]
        return None
    except Exception as e:
        log(...); return None
```
-/
def googleBody (response : NetResult) : Except Unit (Option Json) := do
  let resp ← response
  if resp.status = 429 then return none
  raiseForStatus resp
  let result ← resp.jsonBody
  match result with
  | .jarr (first :: _) =>
    match first with
    | .jarr (y :: _) => return some y
    | _ => return none
  | _ => return none

def translate_with_google (_text _target_lang : List Char)
    (response : NetResult) : Option Json :=
  match googleBody response with
  | .ok v => v
  | .error _ => none

/-! ## `_translate_with_delirius` (lines 697-719)

```python
def _translate_with_delirius(self, text, target_lang):
    try:
        response = get_session().get(url, params=params, headers=headers, timeout=1.2)
        if response.status_code == 429:
            log(...); return None
        response.raise_for_status()
        data = response.json()
        if data.get("status") and data.get("data"):
            return data["data"]
        return None
    except Exception as e:
        log(...); return None
```
(The Python `and` short-circuits; both `get`s raise only when `data` is
not a dict, in which case the first one already raises, so sequencing
both is equivalent.) -/
def deliriusBody (response : NetResult) : Except Unit (Option Json) := do
  let resp ← response
  if resp.status = 429 then return none
  raiseForStatus resp
  let data ← resp.jsonBody
  let status ← pyGet data "status".toList
  let dataField ← pyGet data "data".toList
  if truthy status && truthy dataField then
    let v ← pySubscriptStr data "data".toList
    return some v
  else
    return none

def translate_with_delirius (_text _target_lang : List Char)
    (response : NetResult) : Option Json :=
  match deliriusBody response with
  | .ok v => v
  | .error _ => none

/-! ## `_translate_with_deepl` (lines 721-753)

```python
def _translate_with_deepl(self, text, target_lang):
    try:
        api_key = self.plugin.get_setting("deepl_api_key", "").strip()
        if not api_key:
            log(...); return None
        deepl_target = DEEPL_LANG_MAP.get(target_lang.lower(), target_lang.upper())
        ...
        response = get_session().post(url, headers=headers, data=data, timeout=1.2)
        if response.status_code == 429:
            log(...); return None
        if response.status_code == 200:
            resp_json = response.json()
            if resp_json.get("translations"):
                return resp_json["translations"][0]["text"]
        return None
    except Exception as e:
        log(...); return None
```
`api_key` is the raw `deepl_api_key` setting (stripped below); note
there is no `raise_for_status` here — any status other than 200/429
falls through to `return None`. -/
def DEEPL_LANG_MAP : List (List Char × List Char) :=
  [("en".toList, "EN".toList), ("de".toList, "DE".toList),
   ("fr".toList, "FR".toList), ("es".toList, "ES".toList),
   ("it".toList, "IT".toList), ("nl".toList, "NL".toList),
   ("pl".toList, "PL".toList), ("ru".toList, "RU".toList),
   ("ja".toList, "JA".toList), ("zh".toList, "ZH".toList),
   ("bg".toList, "BG".toList), ("cs".toList, "CS".toList),
   ("da".toList, "DA".toList), ("el".toList, "EL".toList),
   ("et".toList, "ET".toList), ("fi".toList, "FI".toList),
   ("hu".toList, "HU".toList), ("lt".toList, "LT".toList),
   ("lv".toList, "LV".toList), ("pt".toList, "PT".toList),
   ("ro".toList, "RO".toList), ("sk".toList, "SK".toList),
   ("sl".toList, "SL".toList), ("sv".toList, "SV".toList),
   ("tr".toList, "TR".toList), ("uk".toList, "UK".toList),
   ("ko".toList, "KO".toList), ("nb".toList, "NB".toList)]

def deeplBody (api_key target_lang : List Char)
    (response : NetResult) : Except Unit (Option Json) := do
  let key := pyStrip api_key
  if key = [] then return none
  -- `deepl_target` only shapes the outbound form body (host I/O)
  let _deepl_target :=
    match lookupAssoc DEEPL_LANG_MAP (target_lang.map Char.toLower) with
    | some v => v
    | none => target_lang.map Char.toUpper
  let resp ← response
  if resp.status = 429 then return none
  if resp.status = 200 then
    let resp_json ← resp.jsonBody
    let translations ← pyGet resp_json "translations".toList
    if truthy translations then
      let t ← pySubscriptStr resp_json "translations".toList
      let el ← pyIndexZero t
      let v ← pySubscriptStr el "text".toList
      return some v
    else
      return none
  else
    return none

def translate_with_deepl (_text : List Char) (target_lang : List Char)
    (api_key : List Char) (response : NetResult) : Option Json :=
  match deeplBody api_key target_lang response with
  | .ok v => v
  | .error _ => none

/-! ## `preserve_entities` (lines 260-295)

```python
def preserve_entities(original_text: str, translated_text: str) -> str:
    try:
        # (the function first imports the `re` module)
        url_pattern = r'(https?://[^\s]+)'
        original_urls = re.findall(url_pattern, original_text)
        translated_urls = re.findall(url_pattern, translated_text)
        if original_urls and not translated_urls:
            for url in original_urls:
                if url not in translated_text:
                    translated_text += f" {url}"
        emoji_pattern = r'[\U0001F300-\U0001F9FF]+'
        original_emojis = set(re.findall(emoji_pattern, original_text))
        translated_emojis = set(re.findall(emoji_pattern, translated_text))
        missing_emojis = original_emojis - translated_emojis
        if missing_emojis:
            translated_text += "".join(missing_emojis)
        return translated_text
    except Exception as e:
        log(...); return translated_text
```
The embedded body is total, so the trailing catch is dead code.  The
two `re.findall` scans are modelled by structural single passes with
regex semantics: matches are found left to right, are non-overlapping,
and scanning resumes immediately after each match. -/

/-- The emoji character class `[\U0001F300-\U0001F9FF]`. -/
def isEmojiChar (c : Char) : Bool := 0x1F300 ≤ c.toNat && c.toNat ≤ 0x1F9FF

/-- The regex class `[^\s]`. -/
def isUrlChar (c : Char) : Bool := !c.isWhitespace

/-- Python substring test `pat in t`. -/
def hasSub (t pat : List Char) : Bool :=
  match t with
  | [] => pat.isEmpty
  | c :: rest => pat.isPrefixOf (c :: rest) || hasSub rest pat

/-- `re.findall(r'(https?://[^\s]+)', ·)`.  At each position the
pattern matches an `http://`/`https://` scheme followed by a maximal
non-empty run of non-whitespace characters; the `skip` counter makes
the scan structural while still resuming right after a match (regex
scans are non-overlapping).  A failed scheme or an empty `[^\s]+` run
advances one character, exactly as the regex engine does. -/
def findUrlsAux : List Char → Nat → List (List Char)
  | [], _ => []
  | _ :: rest, skip + 1 => findUrlsAux rest skip
  | c :: rest, 0 =>
    if "http://".toList.isPrefixOf (c :: rest) then
      let body := ((c :: rest).drop 7).takeWhile isUrlChar
      if body.isEmpty then findUrlsAux rest 0
      else ("http://".toList ++ body) :: findUrlsAux rest (6 + body.length)
    else if "https://".toList.isPrefixOf (c :: rest) then
      let body := ((c :: rest).drop 8).takeWhile isUrlChar
      if body.isEmpty then findUrlsAux rest 0
      else ("https://".toList ++ body) :: findUrlsAux rest (7 + body.length)
    else findUrlsAux rest 0

def findUrls (t : List Char) : List (List Char) := findUrlsAux t 0

/-- `re.findall(r'[\U0001F300-\U0001F9FF]+', ·)`: the maximal runs of
emoji-range characters, left to right.  `acc` carries the current run
reversed. -/
def emojiRunsAux : List Char → List Char → List (List Char)
  | [], acc => if acc.isEmpty then [] else [acc.reverse]
  | c :: rest, acc =>
    if isEmojiChar c then emojiRunsAux rest (c :: acc)
    else if acc.isEmpty then emojiRunsAux rest []
    else acc.reverse :: emojiRunsAux rest []

def findEmojiRuns (t : List Char) : List (List Char) := emojiRunsAux t []

/-- Python `set(...)`, modelled as first-occurrence deduplication.  The
iteration order of a Python set is unspecified; the properties proved
below are order-independent. -/
def pySetAux : List (List Char) → List (List Char) → List (List Char)
  | [], _ => []
  | x :: xs, seen =>
    if x ∈ seen then pySetAux xs seen else x :: pySetAux xs (x :: seen)

def pySet (l : List (List Char)) : List (List Char) := pySetAux l []

/-- Lines 274-278: append (space-separated) every original URL that the
evolving translated text does not already contain. -/
def appendMissingUrls (t : List Char) : List (List Char) → List Char
  | [] => t
  | u :: us =>
    if hasSub t u then appendMissingUrls t us
    else appendMissingUrls (t ++ ' ' :: u) us

def preserve_entities (original_text translated_text : List Char) : List Char :=
  let original_urls := findUrls original_text
  let translated_urls := findUrls translated_text
  -- lines 274-278: `if original_urls and not translated_urls:`
  let t1 :=
    if !original_urls.isEmpty && translated_urls.isEmpty then
      appendMissingUrls translated_text original_urls
    else translated_text
  -- lines 281-290: emoji runs of the original that are not runs of the
  -- (URL-repaired) translated text are appended at the end
  let original_emojis := pySet (findEmojiRuns original_text)
  let translated_emojis := findEmojiRuns t1
  let missing_emojis :=
    original_emojis.filter (fun r => decide (r ∉ translated_emojis))
  t1 ++ missing_emojis.flatten

/-! ## The hook entry point `TranslateHook.replace_hooked_method`
(lines 478-554)

Host/Java interactions are gathered in a `HookEnv`: each field is the
value the corresponding host call would produce during this
invocation.  `_get_telegram_target_language` (lines 135-160) catches
all its own exceptions and always returns a string, hence a plain
field. -/

structure HookEnv where
  /-- `param.args[0]` is a non-null `MessageObject` (lines 481-483). -/
  messageValid : Bool
  /-- `message_object.messageOwner` is present (lines 485-487). -/
  hasOwner : Bool
  /-- `message_object.getId()` (line 489). -/
  messageId : Nat
  /-- `mo.translatedText is not None` (line 496). -/
  hasNativeTranslation : Bool
  /-- `mo.translatedToLanguage` (line 498). -/
  nativeTranslatedTo : Option (List Char)
  /-- `_get_telegram_target_language()` (lines 497 and 521). -/
  telegramTargetLang : List Char
  /-- `message_object.messageText` (line 503). -/
  messageText : Option (List Char)
  /-- `mo.message` (line 505). -/
  ownerMessage : Option (List Char)
  /-- `message_object.isOut()` (line 511). -/
  isOut : Bool
  /-- Whether `_executor.submit` succeeds (line 541); it raises
  `RuntimeError` when the executor has been shut down. -/
  submitOk : Bool
  deriving Repr, DecidableEq

/-- The arguments passed to the worker task on line 541-550. -/
structure WorkItem where
  originalText : List Char
  usedMessageOwner : Bool
  messageKey : List Char
  targetLangCode : List Char
  messageId : Nat
  cacheKey : Option (List Char)
  deriving Repr, DecidableEq

/-- How `replace_hooked_method` returned (it always returns `None` to
the host; the constructor records which exit path was taken). -/
inductive HookOutcome where
  | notMessage              -- lines 481-483
  | noOwner                 -- lines 485-487
  | skippedInvisible        -- lines 490-493
  | alreadyNativeTranslated -- lines 496-501
  | emptyText               -- lines 503-509
  | outgoing                -- lines 511-512
  | duplicateMessage        -- lines 516-517
  | alreadyInTargetScript   -- lines 523-527
  | dedupInFlight           -- lines 531-536
  | submitted (work : WorkItem) -- lines 539-550
  | raisedNoCleanup
      -- `_executor.submit` raised: the handler on lines 552-553 (which
      -- itself raises `AttributeError`, `_handle_error` being
      -- undefined) removes nothing from either registry
  deriving Repr, DecidableEq

/-- Truthiness-plus-blank test of lines 505 and 508
(`not text or not isinstance(text, str) or not text.strip()`). -/
def pyFalsyText (o : Option (List Char)) : Bool :=
  match o with
  | none => true
  | some s => isBlank s

def replace_hooked_method (env : HookEnv) (st : TransState) :
    TransState × HookOutcome :=
  if !env.messageValid then (st, .notMessage)
  else if !env.hasOwner then (st, .noOwner)
  -- lines 489-493: `is_message_visible(message_id)`
  else if !(st.visibleIds.contains env.messageId) then (st, .skippedInvisible)
  -- lines 496-501
  else if env.hasNativeTranslation &&
      (env.nativeTranslatedTo == some env.telegramTargetLang) then
    (st, .alreadyNativeTranslated)
  else
    -- lines 503-509: fall back to `mo.message` when `messageText` is
    -- blank and the owner text is truthy
    let owner_fallback : Option (List Char) × Bool :=
      match env.ownerMessage with
      | some m => if !m.isEmpty then (some m, true) else (env.messageText, false)
      | none => (env.messageText, false)
    let resolved :=
      if pyFalsyText env.messageText then owner_fallback
      else (env.messageText, false)
    match resolved with
    | (none, _) => (st, .emptyText)
    | (some s, used_message_owner) =>
      if isBlank s then (st, .emptyText)
      else if env.isOut then (st, .outgoing)
      else
        let message_key := (toString env.messageId).toList  -- line 514
        if message_key ∈ st.inProgress then (st, .duplicateMessage)
        else
          -- line 519
          let st1 := { st with inProgress := message_key :: st.inProgress }
          -- line 521
          let target_lang_code :=
            normalize_language_code (some env.telegramTargetLang)
          -- lines 523-527
          if is_already_translated (some s) target_lang_code then
            ({ st1 with inProgress := removeAll st1.inProgress message_key },
              .alreadyInTargetScript)
          else
            let cache_key := get_cache_key s target_lang_code  -- line 529
            -- lines 530-550: one atomic _request_lock section
            if cache_key ∈ st1.requestKeys then
              ({ st1 with inProgress := removeAll st1.inProgress message_key },
                .dedupInFlight)
            else
              let st2 :=
                { st1 with requestKeys := cache_key :: st1.requestKeys }
              if env.submitOk then
                (st2, .submitted ⟨s, used_message_owner, message_key,
                  target_lang_code, env.messageId, some cache_key⟩)
              else
                (st2, .raisedNoCleanup)

/-! ## The worker task `TranslateHook._process_translation`
(lines 556-633) -/

structure WorkEnv where
  /-- The on-disk cache file seen by `load_cache` (line 568). -/
  file : FileContent
  /-- The verdict of `is_online()` (lines 96-111: probe plus 10 s
  memoization, abstracted to its Boolean result). -/
  online : Bool
  /-- Outcome of the provider-selection-and-call region (lines
  591-602): `.error` models an exception raised there, `.ok none` a
  provider returning `None`, `.ok (some t)` a translation `t`. -/
  providerResult : Except Unit (Option (List Char))
  /-- `time.time()` inside `save_cache` (line 83). -/
  now : Nat
  /-- Whether the `json.dump` of `save_cache` succeeds. -/
  writeOk : Bool

inductive WorkOutcome where
  | skippedInvisible          -- lines 562-566
  | storedFromCache (text : List Char) -- lines 570-583
  | offline                   -- lines 585-589
  | providerNoResult          -- lines 606-610
  | stored (text : List Char) -- lines 612-624
  | raisedHandled             -- exception caught on lines 626-627
  deriving Repr, DecidableEq

/-- Lines 559-560: `if not cache_key: cache_key = get_cache_key(...)`
(`not` is falsy for both `None` and the empty string). -/
def resolveCacheKey (w : WorkItem) : List Char :=
  match w.cacheKey with
  | none => get_cache_key w.originalText w.targetLangCode
  | some k =>
    if k.isEmpty then get_cache_key w.originalText w.targetLangCode else k

/-- The `try` body of `_process_translation` (lines 562-624), up to but
not including the `finally`. -/
def process_body (wenv : WorkEnv) (w : WorkItem) (st : TransState)
    (cache_key : List Char) : TransState × WorkOutcome :=
  -- lines 562-566
  if !(st.visibleIds.contains w.messageId) then
    ({ st with inProgress := removeAll st.inProgress w.messageKey },
      .skippedInvisible)
  else
    let loaded := load_cache wenv.file st  -- line 568
    let cache_data := loaded.1
    let sta := loaded.2
    match lookupAssoc cache_data cache_key with  -- lines 570-583
    | some cached =>
      let text := preserve_entities w.originalText cached  -- line 575
      -- `_store_translation_in_native_storage` (lines 635-668) writes
      -- host storage; no module state changes
      ({ sta with inProgress := removeAll sta.inProgress w.messageKey },
        .storedFromCache text)
    | none =>
      if !wenv.online then  -- lines 585-589
        ({ sta with inProgress := removeAll sta.inProgress w.messageKey },
          .offline)
      else
        match wenv.providerResult with  -- lines 591-604
        | .error _ => (sta, .raisedHandled)  -- caught on lines 626-627
        | .ok none =>
          ({ sta with inProgress := removeAll sta.inProgress w.messageKey },
            .providerNoResult)
        | .ok (some t) =>
          -- line 606: `if not translated_text:` is also true for ""
          if t.isEmpty then
            ({ sta with inProgress := removeAll sta.inProgress w.messageKey },
              .providerNoResult)
          else
            let text := preserve_entities w.originalText t  -- line 612
            -- line 614 mutates the shared `_translation_cache` object
            -- returned by `load_cache`
            let stb := { sta with
              translationCache := insertAssoc cache_data cache_key text }
            let stc := save_cache wenv.now wenv.writeOk
              (insertAssoc cache_data cache_key text) stb  -- line 615
            (stc, .stored text)

/-- `_process_translation`: the `try` body followed by the `finally` of
lines 629-633, which always discards `message_key` from the in-progress
set and pops the in-flight key (the `if cache_key:` truthiness guard is
kept). -/
def process_translation (wenv : WorkEnv) (w : WorkItem) (st : TransState) :
    TransState × WorkOutcome :=
  let cache_key := resolveCacheKey w
  let r := process_body wenv w st cache_key
  let st2 := { r.1 with inProgress := removeAll r.1.inProgress w.messageKey }
  if cache_key.isEmpty then (st2, r.2)
  else ({ st2 with requestKeys := removeAll st2.requestKeys cache_key }, r.2)

/-- A concrete hook environment used by the concrete evaluations: a
valid, inbound, untranslated text message with id 5. -/
def sampleEnv : HookEnv :=
  { messageValid := true
    hasOwner := true
    messageId := 5
    hasNativeTranslation := false
    nativeTranslatedTo := none
    telegramTargetLang := "en".toList
    messageText := some "hello world".toList
    ownerMessage := none
    isOut := false
    submitOk := true }

/-- `sampleEnv` at the moment `_executor.submit` raises. -/
def failingSubmitEnv : HookEnv := { sampleEnv with submitOk := false }

/-- The initial state with message 5 visible on screen. -/
def visibleState : TransState := { initState with visibleIds := [5] }

/-! ## Concurrency model of the in-flight registry (for the dedup
invariant)

`replace_hooked_method` performs the membership check of
`_request_cache`, the PENDING insertion and the worker submission in
ONE critical section of `_request_lock` (lines 530-550), and the
worker's `finally` removes the key under the same lock (lines
631-633).  The interleaving of any number of concurrent callers and
workers is modelled as a transition system whose atomic steps are
exactly these two critical sections plus the worker-local phase moves
around the provider dispatch (lines 591-604): a worker in phase
`calling` is precisely an outstanding remote provider invocation. -/

inductive WorkerPhase where
  /-- Submitted (line 541) but the provider call has not started. -/
  | queued
  /-- Inside the provider call (lines 596-602). -/
  | calling
  /-- Provider call finished or skipped (invisible/cache-hit/offline
  paths); the `finally` has not yet run. -/
  | cleaning
  deriving Repr, DecidableEq

structure CoordState where
  /-- The keys of `_request_cache`. -/
  registry : List (List Char)
  /-- One entry per live worker task, with its key and phase. -/
  workers : List (List Char × WorkerPhase)
  deriving Repr, DecidableEq

/-- Number of workers in the list that hold key `k`. -/
def countKey (ws : List (List Char × WorkerPhase)) (k : List Char) : Nat :=
  (ws.filter (fun w => w.1 = k)).length

/-- Number of workers in the list inside a provider call for key `k`. -/
def countCalling (ws : List (List Char × WorkerPhase)) (k : List Char) : Nat :=
  (ws.filter (fun w => w.1 = k ∧ w.2 = .calling)).length

/-- Number of live workers holding key `k`. -/
def keyWorkers (s : CoordState) (k : List Char) : Nat :=
  countKey s.workers k

/-- Number of outstanding provider calls for key `k`. -/
def outstandingCalls (s : CoordState) (k : List Char) : Nat :=
  countCalling s.workers k

inductive CoordStep : CoordState → CoordState → Prop where
  /-- Lines 530-550 with the key absent: mark PENDING and submit, all
  inside one `_request_lock` section. -/
  | acceptMiss (k : List Char) (s : CoordState) :
      k ∉ s.registry →
      CoordStep s ⟨k :: s.registry, (k, .queued) :: s.workers⟩
  /-- Lines 531-536: the key is already PENDING; the caller aborts
  without dispatching (no registry or worker change). -/
  | acceptHit (k : List Char) (s : CoordState) :
      k ∈ s.registry → CoordStep s s
  /-- A queued worker enters the provider call (lines 591-602). -/
  | startCall (k : List Char) (l₁ l₂ : List (List Char × WorkerPhase))
      (s : CoordState) :
      s.workers = l₁ ++ (k, .queued) :: l₂ →
      CoordStep s ⟨s.registry, l₁ ++ (k, .calling) :: l₂⟩
  /-- The provider call returns (or raises, caught on line 626). -/
  | endCall (k : List Char) (l₁ l₂ : List (List Char × WorkerPhase))
      (s : CoordState) :
      s.workers = l₁ ++ (k, .calling) :: l₂ →
      CoordStep s ⟨s.registry, l₁ ++ (k, .cleaning) :: l₂⟩
  /-- A worker finishes without calling any provider (invisible skip,
  cache hit, offline skip: lines 562-589). -/
  | skipCall (k : List Char) (l₁ l₂ : List (List Char × WorkerPhase))
      (s : CoordState) :
      s.workers = l₁ ++ (k, .queued) :: l₂ →
      CoordStep s ⟨s.registry, l₁ ++ (k, .cleaning) :: l₂⟩
  /-- The `finally` (lines 629-633): the worker disappears and its key
  is popped from the registry under `_request_lock`.  A worker cannot
  finish while still inside the provider call. -/
  | finish (k : List Char) (ph : WorkerPhase)
      (l₁ l₂ : List (List Char × WorkerPhase)) (s : CoordState) :
      ph ≠ .calling →
      s.workers = l₁ ++ (k, ph) :: l₂ →
      CoordStep s ⟨removeAll s.registry k, l₁ ++ l₂⟩

/-- States reachable from the initial empty registry. -/
inductive CoordReachable : CoordState → Prop where
  | init : CoordReachable ⟨[], []⟩
  | step {s s' : CoordState} :
      CoordReachable s → CoordStep s s' → CoordReachable s'

/-- The inductive invariant: at most one live worker per key, and none
at all for keys not marked PENDING. -/
def CoordInv (s : CoordState) : Prop :=
  ∀ k : List Char, keyWorkers s k ≤ 1 ∧ (k ∉ s.registry → keyWorkers s k = 0)

end TranslatorPlus

namespace TranslatorPlus

/-! ## Claim theorems for the pure text helpers -/

/-- C7: `normalize_language_code` strips the region suffix and lowercases
("zh_CN" normalizes to "zh"), maps the legacy code "nb" to "no", and
normalizes empty or absent input to "en".  The first conjunct is the
general region-strip property; the rest are the claimed concrete cases. -/
theorem C7_normalize_language_code :
    (∀ base region : List Char, '_' ∉ base → base ≠ [] →
      normalize_language_code (some (base ++ '_' :: region)) =
        normalize_language_code (some base)) ∧
    normalize_language_code (some "zh_CN".toList) = "zh".toList ∧
    normalize_language_code (some "nb".toList) = "no".toList ∧
    normalize_language_code (some "NB_no".toList) = "no".toList ∧
    normalize_language_code (some []) = "en".toList ∧
    normalize_language_code none = "en".toList := by
  refine ⟨?_, by decide, by decide, by decide, by decide, by decide⟩
  intro base region hmem hne
  have htake : ∀ b : List Char, '_' ∉ b →
      (b ++ '_' :: region).takeWhile (fun c => c ≠ '_') = b := by
    intro b
    induction b with
    | nil => intro _; simp [List.takeWhile]
    | cons a as ih =>
      intro hm
      have ha : a ≠ '_' := fun h => hm (h ▸ List.mem_cons_self a as)
      have hm' : '_' ∉ as := fun h => hm (List.mem_cons_of_mem a h)
      rw [List.cons_append, List.takeWhile_cons, if_pos (by simpa using ha),
        ih hm']
  have htake' : base.takeWhile (fun c => c ≠ '_') = base := by
    apply List.takeWhile_eq_self_iff.mpr
    intro c hc
    simp only [decide_eq_true_eq]
    intro h; exact hmem (h ▸ hc)
  have hne' : base ++ '_' :: region ≠ [] := by
    intro h
    exact absurd (List.append_eq_nil.mp h).2 (by simp)
  simp only [normalize_language_code, if_neg hne', if_neg hne, htake base hmem,
    htake']

/-- C7 witness: the general region-strip conjunct applied at a concrete
input. -/
theorem C7_normalize_language_code_witness :
    normalize_language_code (some ("pt".toList ++ '_' :: "BR".toList)) =
      normalize_language_code (some "pt".toList) :=
  C7_normalize_language_code.1 "pt".toList "BR".toList (by decide) (by decide)

/-- C8: for every target language code, `is_already_translated` returns
`true` whenever the original text is shorter than 3 characters
(including empty or absent text). -/
theorem C8_short_text_already_translated :
    (∀ lang : List Char, is_already_translated none lang = true) ∧
    (∀ (s : List Char) (lang : List Char), s.length < 3 →
      is_already_translated (some s) lang = true) := by
  refine ⟨fun _ => rfl, ?_⟩
  intro s lang h
  show (if s = [] ∨ s.length < 3 then true
        else if lang ∈ cjkTargets then s.any inCjkRanges
        else if lang ∈ cyrillicTargets then s.any inCyrillicRange
        else false) = true
  rw [if_pos (Or.inr h)]

/-- C8 witness: a 2-character text with a CJK target language. -/
theorem C8_short_text_already_translated_witness :
    is_already_translated (some "hi".toList) "ja".toList = true :=
  C8_short_text_already_translated.2 "hi".toList "ja".toList (by decide)

/-- C10: for text of length at least 3 and a target language in
{"zh", "ja", "ko"}, `is_already_translated` returns `true` as soon as any
single character lies in the CJK-ideograph, hiragana, katakana, or hangul
ranges, without distinguishing which of the three target languages the
character's script belongs to (the second conjunct: the result is
identical for all three targets). -/
theorem C10_cjk_script_detection :
    (∀ (s : List Char) (lang : List Char) (c : Char),
      lang ∈ cjkTargets → 3 ≤ s.length → c ∈ s →
      inCjkRanges c = true → is_already_translated (some s) lang = true) ∧
    (∀ (s : List Char) (l₁ l₂ : List Char),
      l₁ ∈ cjkTargets → l₂ ∈ cjkTargets →
      is_already_translated (some s) l₁ = is_already_translated (some s) l₂) := by
  constructor
  · intro s lang c hlang hlen hc hrange
    have hshort : ¬ (s = [] ∨ s.length < 3) := by
      rintro (h | h)
      · subst h; simp at hlen
      · omega
    simp only [is_already_translated, if_neg hshort, if_pos hlang]
    exact List.any_eq_true.mpr ⟨c, hc, hrange⟩
  · intro s l₁ l₂ h₁ h₂
    simp only [is_already_translated]
    rw [if_pos h₁, if_pos h₂]

/-- C10 witness: a Korean-target request whose text is Latin except for a
single hiragana character is treated as already translated. -/
theorem C10_cjk_script_detection_witness :
    is_already_translated (some "abあ".toList) "ko".toList = true :=
  C10_cjk_script_detection.1 "abあ".toList "ko".toList 'あ'
    (by decide) (by decide) (by decide) (by decide)

/-! ## C3: `load_cache` read-once and error behaviour -/

/-- C3 counterexample: the claim says only the first call in any
sequence performs a disk read.  With a corrupt cache file the first
call reads (and swallows the parse failure), stores the empty mapping,
and — because the guard `if _translation_cache:` tests truthiness — the
second call reads the file again: two calls, two disk reads. -/
theorem C3_counterexample :
    ((load_cache (some (.error ())) initState).2).diskReads = 1 ∧
    ((load_cache (some (.error ()))
        (load_cache (some (.error ())) initState).2).2).diskReads = 2 :=
  ⟨rfl, rfl⟩

/-- C3 (amended): `load_cache` skips the disk read and returns the
in-memory mapping whenever that mapping is non-empty; hence after a
first call that loads a NON-empty file only the first call reads the
disk and the second returns the loaded mapping unchanged.  When the
mapping is empty (missing, corrupt, or empty file) each call attempts
the read again.  If the file is missing or corrupt, `load_cache`
returns an empty mapping and swallows the error. -/
theorem C3_load_cache_amended :
    (∀ (file : FileContent) (st : TransState), st.translationCache ≠ [] →
      load_cache file st = (st.translationCache, st)) ∧
    (∀ (file : FileContent) (st : TransState)
        (m : List (List Char × List Char)),
      st.translationCache = [] → file = some (.ok m) → m ≠ [] →
      (load_cache file st).1 = m ∧
      ((load_cache file st).2).diskReads = st.diskReads + 1 ∧
      load_cache file (load_cache file st).2 = (m, (load_cache file st).2)) ∧
    (∀ st : TransState, st.translationCache = [] →
      (load_cache none st).1 = [] ∧
      (load_cache (some (.error ())) st).1 = []) := by
  refine ⟨?_, ?_, ?_⟩
  · intro file st h
    simp [load_cache, h]
  · intro file st m hcache hfile hm
    subst hfile
    simp [load_cache, hcache, hm]
  · intro st h
    simp [load_cache, h]

/-- C3 witness: the amended read-once-for-non-empty-load conjunct at a
concrete one-entry file. -/
theorem C3_load_cache_amended_witness :
    (load_cache (some (.ok [("k".toList, "v".toList)])) initState).1 =
      [("k".toList, "v".toList)] ∧
    ((load_cache (some (.ok [("k".toList, "v".toList)])) initState).2).diskReads =
      initState.diskReads + 1 ∧
    load_cache (some (.ok [("k".toList, "v".toList)]))
        (load_cache (some (.ok [("k".toList, "v".toList)])) initState).2 =
      ([("k".toList, "v".toList)],
        (load_cache (some (.ok [("k".toList, "v".toList)])) initState).2) :=
  C3_load_cache_amended.2.1 (some (.ok [("k".toList, "v".toList)])) initState
    [("k".toList, "v".toList)] rfl rfl (by decide)

/-! ## C4: debounced `save_cache` -/

/-- C4: `save_cache` is debounced.  Conjunct 1: a call inside the
debounce window only marks the store dirty and changes nothing else.
Conjunct 2: a physical write happens only when at least the save
interval (60 s) has elapsed since the last write time.  Conjunct 3: the
claimed scenario — with successful writes, two calls within one
interval of the last physical write produce exactly one physical write
(the skipped call leaving the dirty mark set), and a third call after
the interval elapses produces a second write. -/
theorem C4_save_cache_debounced :
    (∀ (now : Nat) (ok : Bool) (d : List (List Char × List Char))
        (st : TransState), now - st.cacheLastSave < cacheSaveInterval →
      save_cache now ok d st = { st with cacheDirty := true }) ∧
    (∀ (now : Nat) (ok : Bool) (d : List (List Char × List Char))
        (st : TransState),
      (save_cache now ok d st).diskWrites ≠ st.diskWrites →
      cacheSaveInterval ≤ now - st.cacheLastSave) ∧
    (∀ (t₁ t₂ t₃ : Nat) (d₁ d₂ d₃ : List (List Char × List Char))
        (st : TransState),
      cacheSaveInterval ≤ t₁ - st.cacheLastSave →
      t₂ - t₁ < cacheSaveInterval →
      cacheSaveInterval ≤ t₃ - t₁ →
      (save_cache t₁ true d₁ st).diskWrites = st.diskWrites + 1 ∧
      (save_cache t₁ true d₁ st).cacheDirty = false ∧
      (save_cache t₂ true d₂ (save_cache t₁ true d₁ st)).diskWrites =
        st.diskWrites + 1 ∧
      (save_cache t₂ true d₂ (save_cache t₁ true d₁ st)).cacheDirty = true ∧
      (save_cache t₃ true d₃
          (save_cache t₂ true d₂ (save_cache t₁ true d₁ st))).diskWrites =
        st.diskWrites + 2) := by
  refine ⟨?_, ?_, ?_⟩
  · intro now ok d st h
    simp [save_cache, h]
  · intro now ok d st h
    by_cases hlt : now - st.cacheLastSave < cacheSaveInterval
    · exact absurd (by simp [save_cache, hlt]) h
    · omega
  · intro t₁ t₂ t₃ d₁ d₂ d₃ st h₁ h₂ h₃
    have n₁ : ¬ t₁ - st.cacheLastSave < cacheSaveInterval := by omega
    have e₁ : save_cache t₁ true d₁ st =
        { st with
          cacheDirty := false
          cacheLastSave := t₁
          diskWrites := st.diskWrites + 1 } := by
      simp [save_cache, n₁]
    rw [e₁]
    have n₂ : t₂ - t₁ < cacheSaveInterval := h₂
    have e₂ : save_cache t₂ true d₂
        { st with
          cacheDirty := false
          cacheLastSave := t₁
          diskWrites := st.diskWrites + 1 } =
        { st with
          cacheDirty := true
          cacheLastSave := t₁
          diskWrites := st.diskWrites + 1 } := by
      simp [save_cache, n₂]
    rw [e₂]
    have n₃ : ¬ t₃ - t₁ < cacheSaveInterval := by omega
    have e₃ : save_cache t₃ true d₃
        { st with
          cacheDirty := true
          cacheLastSave := t₁
          diskWrites := st.diskWrites + 1 } =
        { st with
          cacheDirty := false
          cacheLastSave := t₃
          diskWrites := st.diskWrites + 2 } := by
      simp [save_cache, n₃]
    rw [e₃]
    exact ⟨rfl, rfl, rfl, rfl, rfl⟩

/-! ## C5: provider calls never raise; failures collapse to no result -/

/-- Helper: on a raised network call the DeepL body either returned
`None` early for a blank credential or propagates the raise. -/
theorem deeplBody_of_error (api_key target_lang : List Char) :
    deeplBody api_key target_lang (.error ()) =
      if pyStrip api_key = [] then .ok none else .error () := rfl

/-- C5: for every input text and target language and for every HTTP
outcome, each provider translate function yields no result (`none`) on
every failure — a raised network error (timeout/connection), an HTTP
429 rate-limit status, another 4xx/5xx status, an unparseable response
body, or a missing DeepL credential — and yields the translated string
on a well-formed success response.  Never-raising is embodied by the
embedding: each function is the `try/except` catch of its
`Except`-valued body, so every internal raise collapses to `none`. -/
theorem C5_provider_failures_collapse :
    (∀ text lang : List Char,
      translate_with_google text lang (.error ()) = none ∧
      translate_with_delirius text lang (.error ()) = none ∧
      ∀ key : List Char,
        translate_with_deepl text lang key (.error ()) = none) ∧
    (∀ (text lang : List Char) (body : Except Unit Json),
      translate_with_google text lang (.ok ⟨429, body⟩) = none ∧
      translate_with_delirius text lang (.ok ⟨429, body⟩) = none ∧
      translate_with_deepl text lang "abc123".toList (.ok ⟨429, body⟩) = none) ∧
    (∀ (text lang : List Char) (body : Except Unit Json),
      translate_with_google text lang (.ok ⟨503, body⟩) = none ∧
      translate_with_delirius text lang (.ok ⟨503, body⟩) = none ∧
      translate_with_deepl text lang "abc123".toList (.ok ⟨503, body⟩) = none) ∧
    (∀ text lang : List Char,
      translate_with_google text lang (.ok ⟨200, .error ()⟩) = none ∧
      translate_with_delirius text lang (.ok ⟨200, .error ()⟩) = none ∧
      translate_with_deepl text lang "abc123".toList
        (.ok ⟨200, .error ()⟩) = none) ∧
    (∀ (text lang : List Char) (response : NetResult),
      translate_with_deepl text lang [] response = none ∧
      translate_with_deepl text lang "   ".toList response = none) ∧
    (∀ (text lang s : List Char) (inner outer : List Json),
      translate_with_google text lang
        (.ok ⟨200, .ok (.jarr (.jarr (.jstr s :: inner) :: outer))⟩) =
        some (.jstr s)) ∧
    (∀ (text lang : List Char) (c : Char) (s : List Char)
        (rest : List (List Char × Json)),
      translate_with_delirius text lang
        (.ok ⟨200, .ok (.jobj (("status".toList, .jbool true) ::
            ("data".toList, .jstr (c :: s)) :: rest))⟩) =
        some (.jstr (c :: s))) ∧
    (∀ text lang s : List Char,
      translate_with_deepl text lang "abc123".toList
        (.ok ⟨200, .ok (.jobj [("translations".toList,
            .jarr [.jobj [("text".toList, .jstr s)]])])⟩) =
        some (.jstr s)) := by
  refine ⟨fun text lang => ⟨rfl, rfl, fun key => ?_⟩,
    fun text lang body => ⟨rfl, rfl, rfl⟩,
    fun text lang body => ⟨rfl, rfl, rfl⟩,
    fun text lang => ⟨rfl, rfl, rfl⟩,
    fun text lang response => ⟨rfl, rfl⟩,
    fun text lang s inner outer => rfl,
    fun text lang c s rest => rfl,
    fun text lang s => rfl⟩
  unfold translate_with_deepl
  rw [deeplBody_of_error]
  by_cases h : pyStrip key = [] <;> simp [h]

/-! ## C6: `preserve_entities` helper lemmas -/

theorem isPrefixOf_self (p : List Char) : p.isPrefixOf p = true := by
  induction p with
  | nil => rfl
  | cons a as ih => simp [List.isPrefixOf, ih]

theorem isPrefixOf_append_right {p t : List Char} (u : List Char)
    (h : p.isPrefixOf t = true) : p.isPrefixOf (t ++ u) = true := by
  induction p generalizing t with
  | nil =>
    cases t ++ u with
    | nil => rfl
    | cons b bs => rfl
  | cons a as ih =>
    cases t with
    | nil => simp [List.isPrefixOf] at h
    | cons b bs =>
      simp only [List.isPrefixOf, Bool.and_eq_true] at h ⊢
      exact ⟨h.1, ih h.2⟩

theorem hasSub_nil_pat (t : List Char) : hasSub t [] = true := by
  induction t with
  | nil => rfl
  | cons c rest ih => simp [hasSub]

theorem hasSub_append_left {t p : List Char} (u : List Char)
    (h : hasSub t p = true) : hasSub (t ++ u) p = true := by
  induction t with
  | nil =>
    have hp : p = [] := by
      cases p with
      | nil => rfl
      | cons a as => simp [hasSub] at h
    subst hp
    exact hasSub_nil_pat u
  | cons c rest ih =>
    simp only [hasSub, Bool.or_eq_true] at h
    simp only [List.cons_append, hasSub, Bool.or_eq_true]
    rcases h with h | h
    · exact Or.inl (isPrefixOf_append_right u h)
    · exact Or.inr (ih h)

theorem hasSub_suffix (t p : List Char) : hasSub (t ++ p) p = true := by
  induction t with
  | nil =>
    cases p with
    | nil => rfl
    | cons a as => simp [hasSub, isPrefixOf_self]
  | cons c rest ih =>
    simp only [List.cons_append, hasSub, Bool.or_eq_true]
    exact Or.inr ih

theorem hasSub_appendMissingUrls {t p : List Char} (us : List (List Char))
    (h : hasSub t p = true) :
    hasSub (appendMissingUrls t us) p = true := by
  induction us generalizing t with
  | nil => exact h
  | cons u us ih =>
    simp only [appendMissingUrls]
    by_cases hu : hasSub t u = true
    · rw [if_pos hu]; exact ih h
    · rw [if_neg hu]; exact ih (hasSub_append_left _ h)

theorem mem_appendMissingUrls (u : List Char) (us : List (List Char)) :
    ∀ t : List Char, u ∈ us → hasSub (appendMissingUrls t us) u = true := by
  induction us with
  | nil => intro t h; cases h
  | cons v us ih =>
    intro t h
    simp only [appendMissingUrls]
    rcases List.mem_cons.mp h with rfl | hmem
    · by_cases hv : hasSub t u = true
      · rw [if_pos hv]; exact hasSub_appendMissingUrls us hv
      · rw [if_neg hv]
        have hsuf : hasSub (t ++ ' ' :: u) u = true := by
          have h' := hasSub_suffix (t ++ [' ']) u
          simpa [List.append_assoc] using h'
        exact hasSub_appendMissingUrls us hsuf
    · by_cases hv : hasSub t v = true
      · rw [if_pos hv]; exact ih t hmem
      · rw [if_neg hv]; exact ih _ hmem

theorem mem_of_mem_emojiRunsAux (c : Char) :
    ∀ t acc r : List Char, r ∈ emojiRunsAux t acc → c ∈ r →
      c ∈ t ∨ c ∈ acc := by
  intro t
  induction t with
  | nil =>
    intro acc r hr hc
    by_cases h : acc.isEmpty = true
    · simp [emojiRunsAux, h] at hr
    · simp only [emojiRunsAux, if_neg h, List.mem_singleton] at hr
      subst hr
      exact Or.inr (List.mem_reverse.mp hc)
  | cons a rest ih =>
    intro acc r hr hc
    simp only [emojiRunsAux] at hr
    by_cases he : isEmojiChar a = true
    · rw [if_pos he] at hr
      rcases ih (a :: acc) r hr hc with h | h
      · exact Or.inl (List.mem_cons_of_mem _ h)
      · rcases List.mem_cons.mp h with rfl | h'
        · exact Or.inl (List.mem_cons_self _ _)
        · exact Or.inr h'
    · rw [if_neg he] at hr
      by_cases hacc : acc.isEmpty = true
      · rw [if_pos hacc] at hr
        rcases ih [] r hr hc with h | h
        · exact Or.inl (List.mem_cons_of_mem _ h)
        · cases h
      · rw [if_neg hacc] at hr
        rcases List.mem_cons.mp hr with rfl | hr'
        · exact Or.inr (List.mem_reverse.mp hc)
        · rcases ih [] r hr' hc with h | h
          · exact Or.inl (List.mem_cons_of_mem _ h)
          · cases h

theorem mem_acc_emojiRunsAux (x : Char) :
    ∀ t acc : List Char, x ∈ acc → ∃ r ∈ emojiRunsAux t acc, x ∈ r := by
  intro t
  induction t with
  | nil =>
    intro acc hx
    have hne : acc.isEmpty = false := by
      cases acc with
      | nil => cases hx
      | cons y ys => rfl
    refine ⟨acc.reverse, ?_, List.mem_reverse.mpr hx⟩
    simp [emojiRunsAux, hne]
  | cons a rest ih =>
    intro acc hx
    simp only [emojiRunsAux]
    by_cases he : isEmojiChar a = true
    · rw [if_pos he]
      exact ih (a :: acc) (List.mem_cons_of_mem _ hx)
    · rw [if_neg he]
      have hne : ¬ acc.isEmpty = true := by
        cases acc with
        | nil => cases hx
        | cons y ys => simp
      rw [if_neg hne]
      exact ⟨acc.reverse, List.mem_cons_self _ _, List.mem_reverse.mpr hx⟩

theorem mem_emojiRunsAux_of_mem (c : Char) (hc : isEmojiChar c = true) :
    ∀ t acc : List Char, c ∈ t → ∃ r ∈ emojiRunsAux t acc, c ∈ r := by
  intro t
  induction t with
  | nil => intro acc h; cases h
  | cons a rest ih =>
    intro acc h
    simp only [emojiRunsAux]
    rcases List.mem_cons.mp h with rfl | hmem
    · rw [if_pos hc]
      exact mem_acc_emojiRunsAux c rest (c :: acc) (List.mem_cons_self _ _)
    · by_cases he : isEmojiChar a = true
      · rw [if_pos he]; exact ih (a :: acc) hmem
      · rw [if_neg he]
        by_cases hacc : acc.isEmpty = true
        · rw [if_pos hacc]; exact ih [] hmem
        · rw [if_neg hacc]
          obtain ⟨r, hr, hcr⟩ := ih [] hmem
          exact ⟨r, List.mem_cons_of_mem _ hr, hcr⟩

theorem mem_pySetAux (x : List Char) :
    ∀ l seen : List (List Char), x ∈ l → x ∈ pySetAux l seen ∨ x ∈ seen := by
  intro l
  induction l with
  | nil => intro seen h; cases h
  | cons y ys ih =>
    intro seen h
    simp only [pySetAux]
    rcases List.mem_cons.mp h with rfl | hmem
    · by_cases hs : x ∈ seen
      · exact Or.inr hs
      · rw [if_neg hs]; exact Or.inl (List.mem_cons_self _ _)
    · by_cases hs : y ∈ seen
      · rw [if_pos hs]; exact ih seen hmem
      · rw [if_neg hs]
        rcases ih (y :: seen) hmem with h' | h'
        · exact Or.inl (List.mem_cons_of_mem _ h')
        · rcases List.mem_cons.mp h' with rfl | h''
          · exact Or.inl (List.mem_cons_self _ _)
          · exact Or.inr h''

theorem mem_pySet {x : List Char} {l : List (List Char)} (h : x ∈ l) :
    x ∈ pySet l :=
  (mem_pySetAux x l [] h).resolve_right (by simp)

/-- C6: `preserve_entities` restores entities dropped by translation:
when the original text contains URLs and the translated text contains
none, every URL found in the original occurs in the result (appended at
the end when missing); every emoji code point present in the original
but absent from the translation occurs in the result; and on the
claimed concrete input the result contains both the URL and the
emoji. -/
theorem C6_preserve_entities :
    (∀ original translated u : List Char,
      findUrls translated = [] → u ∈ findUrls original →
      hasSub (preserve_entities original translated) u = true) ∧
    (∀ (original translated : List Char) (c : Char),
      isEmojiChar c = true → c ∈ original → c ∉ translated →
      c ∈ preserve_entities original translated) ∧
    hasSub (preserve_entities "See https://example.com 😀".toList
      "Voir".toList) "https://example.com".toList = true ∧
    '😀' ∈ preserve_entities "See https://example.com 😀".toList
      "Voir".toList := by
  refine ⟨?_, ?_, by decide, by decide⟩
  · intro original translated u htrans hu
    simp only [preserve_entities]
    have horig : (findUrls original).isEmpty = false := by
      cases hfo : findUrls original with
      | nil => rw [hfo] at hu; cases hu
      | cons a l => rfl
    have hcond : (!(findUrls original).isEmpty &&
        (findUrls translated).isEmpty) = true := by
      rw [horig, htrans]; rfl
    rw [if_pos hcond]
    exact hasSub_append_left _ (mem_appendMissingUrls u (findUrls original)
      translated hu)
  · intro original translated c hemoji hcorig _hcnot
    simp only [preserve_entities, findEmojiRuns]
    obtain ⟨r, hr, hcr⟩ := mem_emojiRunsAux_of_mem c hemoji original [] hcorig
    generalize (if !(findUrls original).isEmpty &&
        (findUrls translated).isEmpty then
      appendMissingUrls translated (findUrls original)
      else translated) = t1
    by_cases hmem : r ∈ emojiRunsAux t1 []
    · rcases mem_of_mem_emojiRunsAux c t1 [] r hmem hcr with h | h
      · exact List.mem_append_left _ h
      · cases h
    · apply List.mem_append_right
      apply List.mem_flatten.mpr
      refine ⟨r, ?_, hcr⟩
      apply List.mem_filter.mpr
      exact ⟨mem_pySet hr, by simpa using hmem⟩

/-- C6 witness: the two general conjuncts applied at the claim's
concrete inputs. -/
theorem C6_preserve_entities_witness :
    hasSub (preserve_entities "See https://example.com 😀".toList
      "Voir".toList) "https://example.com".toList = true ∧
    '😀' ∈ preserve_entities "See https://example.com 😀".toList
      "Voir".toList :=
  ⟨C6_preserve_entities.1 "See https://example.com 😀".toList "Voir".toList
      "https://example.com".toList (by decide) (by decide),
    C6_preserve_entities.2.1 "See https://example.com 😀".toList
      "Voir".toList '😀' (by decide) (by decide) (by decide)⟩

/-! ## C1: at most one outstanding provider call per CacheKey -/

theorem countKey_append (l₁ l₂ : List (List Char × WorkerPhase))
    (k : List Char) :
    countKey (l₁ ++ l₂) k = countKey l₁ k + countKey l₂ k := by
  simp [countKey, List.filter_append]

theorem countKey_cons (w : List Char × WorkerPhase)
    (ws : List (List Char × WorkerPhase)) (k : List Char) :
    countKey (w :: ws) k = (if w.1 = k then 1 else 0) + countKey ws k := by
  by_cases h : w.1 = k <;>
    simp [countKey, List.filter_cons, h, Nat.add_comm]

theorem mem_removeAll_iff {x k : List Char} {l : List (List Char)} :
    x ∈ removeAll l k ↔ x ∈ l ∧ x ≠ k := by
  simp [removeAll, List.mem_filter]

theorem filter_length_mono {α : Type} (p q : α → Bool) (l : List α)
    (h : ∀ a, p a = true → q a = true) :
    (l.filter p).length ≤ (l.filter q).length := by
  induction l with
  | nil => simp
  | cons a as ih =>
    rw [List.filter_cons, List.filter_cons]
    by_cases hp : p a = true
    · rw [if_pos hp, if_pos (h a hp)]
      simpa using ih
    · rw [if_neg hp]
      by_cases hq : q a = true
      · rw [if_pos hq]
        exact Nat.le_succ_of_le ih
      · rw [if_neg hq]
        exact ih

theorem coordInv_step {s s' : CoordState} (hs : CoordInv s)
    (h : CoordStep s s') : CoordInv s' := by
  cases h with
  | acceptMiss k s hk =>
    intro k'
    obtain ⟨h1, h2⟩ := hs k'
    simp only [CoordInv, keyWorkers, countKey_cons]
    by_cases hkk : k = k'
    · subst hkk
      have h0 : countKey s.workers k = 0 := (hs k).2 hk
      constructor
      · simp [h0]
      · intro hmem
        exact absurd (List.mem_cons_self k s.registry) hmem
    · constructor
      · simpa [hkk] using h1
      · intro hmem
        have hreg : k' ∉ s.registry := fun hh =>
          hmem (List.mem_cons_of_mem _ hh)
        simpa [hkk] using h2 hreg
  | acceptHit k s hk => exact hs
  | startCall k l₁ l₂ s hw =>
    intro k'
    obtain ⟨h1, h2⟩ := hs k'
    simp only [keyWorkers, hw, countKey_append, countKey_cons] at h1 h2
    simp only [keyWorkers, countKey_append, countKey_cons]
    exact ⟨h1, h2⟩
  | endCall k l₁ l₂ s hw =>
    intro k'
    obtain ⟨h1, h2⟩ := hs k'
    simp only [keyWorkers, hw, countKey_append, countKey_cons] at h1 h2
    simp only [keyWorkers, countKey_append, countKey_cons]
    exact ⟨h1, h2⟩
  | skipCall k l₁ l₂ s hw =>
    intro k'
    obtain ⟨h1, h2⟩ := hs k'
    simp only [keyWorkers, hw, countKey_append, countKey_cons] at h1 h2
    simp only [keyWorkers, countKey_append, countKey_cons]
    exact ⟨h1, h2⟩
  | finish k ph l₁ l₂ s hph hw =>
    intro k'
    obtain ⟨h1, h2⟩ := hs k'
    simp only [keyWorkers, hw, countKey_append, countKey_cons] at h1 h2
    simp only [keyWorkers, countKey_append]
    by_cases hkk : k = k'
    · simp [hkk] at h1 h2
      exact ⟨by omega, fun _ => by omega⟩
    · simp [hkk] at h1 h2
      refine ⟨by omega, ?_⟩
      intro hmem
      have hreg : k' ∉ s.registry := fun hh =>
        hmem (mem_removeAll_iff.mpr ⟨hh, fun he => hkk he.symm⟩)
      have h0 := h2 hreg
      omega

/-- C1: in every state reachable by any interleaving of concurrent
callers and workers, at most one remote provider call is outstanding
per CacheKey.  The membership check and PENDING insertion of
`_request_cache` happen atomically inside one `_request_lock` section
(one `acceptMiss` step), a caller finding the key present aborts
without dispatching (`acceptHit`), and the worker's `finally` releases
the key under the same lock (`finish`). -/
theorem C1_dedup_invariant :
    ∀ s : CoordState, CoordReachable s → ∀ k : List Char,
      outstandingCalls s k ≤ 1 := by
  have hinv : ∀ s : CoordState, CoordReachable s → CoordInv s := by
    intro s h
    induction h with
    | init =>
      intro k
      exact ⟨by simp [keyWorkers, countKey], fun _ => by
        simp [keyWorkers, countKey]⟩
    | step hr hstep ih => exact coordInv_step ih hstep
  intro s hs k
  have h1 := (hinv s hs k).1
  have hmono : outstandingCalls s k ≤ keyWorkers s k := by
    apply filter_length_mono
    intro a ha
    simp only [decide_eq_true_eq] at ha ⊢
    exact ha.1
  omega

/-- C1 witness: a concrete reachable state holding one worker inside a
provider call. -/
theorem C1_dedup_invariant_witness :
    outstandingCalls ⟨["k_en".toList], [("k_en".toList, .calling)]⟩
      "k_en".toList ≤ 1 :=
  C1_dedup_invariant ⟨["k_en".toList], [("k_en".toList, .calling)]⟩
    (CoordReachable.step
      (CoordReachable.step CoordReachable.init
        (CoordStep.acceptMiss "k_en".toList ⟨[], []⟩ (by simp)))
      (CoordStep.startCall "k_en".toList [] []
        ⟨["k_en".toList], [("k_en".toList, .queued)]⟩ rfl))
    "k_en".toList

/-! ## C2: bookkeeping cleanup on request exit paths -/

theorem get_cache_key_ne_nil (text lang : List Char) :
    get_cache_key text lang ≠ [] := by
  unfold get_cache_key
  cases text.take 50 <;> simp

theorem resolveCacheKey_not_empty (w : WorkItem) :
    ¬ (resolveCacheKey w).isEmpty = true := by
  unfold resolveCacheKey
  rcases w.cacheKey with _ | k
  · simpa using get_cache_key_ne_nil w.originalText w.targetLangCode
  · by_cases he : k.isEmpty = true
    · simpa [he] using get_cache_key_ne_nil w.originalText w.targetLangCode
    · simp [he]

theorem not_mem_removeAll (l : List (List Char)) (k : List Char) :
    k ∉ removeAll l k := by
  intro h
  have h2 := (List.mem_filter.mp h).2
  simp at h2

/-- C2 counterexample to the claim as stated: when an exception occurs
in `replace_hooked_method` between acceptance and worker submission
(here: `_executor.submit` raising, e.g. after executor shutdown), the
`except` handler performs no cleanup, so the requestId stays in the
in-progress set and the CacheKey stays in the in-flight registry — and
an identical second request is dropped as a duplicate. -/
theorem C2_counterexample :
    (replace_hooked_method failingSubmitEnv visibleState).2 =
      .raisedNoCleanup ∧
    "5".toList ∈
      (replace_hooked_method failingSubmitEnv visibleState).1.inProgress ∧
    get_cache_key "hello world".toList "en".toList ∈
      (replace_hooked_method failingSubmitEnv visibleState).1.requestKeys ∧
    (replace_hooked_method sampleEnv
        (replace_hooked_method failingSubmitEnv visibleState).1).2 =
      .duplicateMessage := by
  decide

/-- C2 (amended): every exit path of the worker task
`_process_translation` — success, cache hit, invisible skip, offline
skip, no-result failure, or an exception raised inside it (including
inside the provider call) — removes both the requestId (`message_key`)
from the in-progress set and the CacheKey from the in-flight registry,
via the `finally` block.  (The amendment drops the claim's extension to
exceptions raised in `replace_hooked_method` between acceptance and
worker submission, which leak both keys — see the counterexample.) -/
theorem C2_worker_cleanup :
    ∀ (wenv : WorkEnv) (w : WorkItem) (st : TransState),
      w.messageKey ∉ (process_translation wenv w st).1.inProgress ∧
      resolveCacheKey w ∉ (process_translation wenv w st).1.requestKeys := by
  intro wenv w st
  have hck : ¬ (resolveCacheKey w).isEmpty = true := resolveCacheKey_not_empty w
  simp only [process_translation]
  rw [if_neg hck]
  exact ⟨not_mem_removeAll _ _, not_mem_removeAll _ _⟩

/-! ## C9: the visibility gate -/

/-- C9: when the visibility check reports the message as not visible,
`replace_hooked_method` returns immediately with the module state
unchanged: nothing is added to the in-progress set or the in-flight
registry, and no worker is submitted — hence no cache lookup and no
provider call, which only happen inside a submitted worker. -/
theorem C9_visibility_gate :
    ∀ (env : HookEnv) (st : TransState),
      env.messageValid = true → env.hasOwner = true →
      st.visibleIds.contains env.messageId = false →
      replace_hooked_method env st = (st, .skippedInvisible) := by
  intro env st hv ho hvis
  have hnotmem : env.messageId ∉ st.visibleIds := by simpa using hvis
  simp [replace_hooked_method, hv, ho, hnotmem]

/-- C9 witness: `sampleEnv` against the initial state, in which no
message is visible. -/
theorem C9_visibility_gate_witness :
    replace_hooked_method sampleEnv initState =
      (initState, .skippedInvisible) :=
  C9_visibility_gate sampleEnv initState rfl rfl rfl

/-- C4 witness: the scenario conjunct at concrete times 60, 100, 125
starting from the initial state (last write time 0). -/
theorem C4_save_cache_debounced_witness :
    (save_cache 60 true [] initState).diskWrites = initState.diskWrites + 1 ∧
    (save_cache 60 true [] initState).cacheDirty = false ∧
    (save_cache 100 true [] (save_cache 60 true [] initState)).diskWrites =
      initState.diskWrites + 1 ∧
    (save_cache 100 true [] (save_cache 60 true [] initState)).cacheDirty = true ∧
    (save_cache 125 true []
        (save_cache 100 true [] (save_cache 60 true [] initState))).diskWrites =
      initState.diskWrites + 2 :=
  C4_save_cache_debounced.2.2 60 100 125 [] [] [] initState
    (by decide) (by decide) (by decide)

end TranslatorPlus
